import Mathlib

/- Verification development for the client-side utility script style.js of a
   static portfolio site: navigation highlighting, theme persistence, scroll
   animations, and the generic helpers (debounce, throttle, clipboard copy,
   HTML escaping, error wrapping). DOM element state is embedded as explicit
   class lists and option-valued element lookups; timer-driven behaviour is
   embedded as runs over explicit call timelines. -/

namespace StyleJs

/-- DOM classList.add: append the token when it is absent, keep the list
otherwise. -/
def addClass (c : String) (cs : List String) : List String :=
  if c ∈ cs then cs else cs ++ [c]

/-- DOM classList.remove: drop every occurrence of the token. -/
def removeClass (c : String) (cs : List String) : List String :=
  cs.filter (fun x => x ≠ c)

/-- DOM classList.toggle: remove the token when present, add it when absent. -/
def toggleClass (c : String) (cs : List String) : List String :=
  if c ∈ cs then removeClass c cs else addClass c cs

theorem mem_addClass (c : String) (cs : List String) : c ∈ addClass c cs := by
  unfold addClass
  split
  · assumption
  · simp

theorem not_mem_removeClass (c : String) (cs : List String) :
    c ∉ removeClass c cs := by
  simp [removeClass]

/-- A navigation link element: its href attribute and its class list. -/
structure NavLink where
  href : String
  classes : List String
deriving DecidableEq

/-- JS String.prototype.split with a one-character separator: splits at every
occurrence, keeping empty segments, and the split of the empty string is one
empty segment. -/
def splitChar (sep : Char) : List Char → List (List Char)
  | [] => [[]]
  | c :: cs =>
      let r := splitChar sep cs
      if c = sep then [] :: r
      else (c :: r.headD []) :: r.tail

/-- The expression window.location.pathname.split(slash).pop() followed by
the or-default: the last slash-separated segment of the path, replaced by
index.html when that segment is the empty string (the only falsy string). -/
def currentPage (pathname : String) : String :=
  let seg := (splitChar '/' pathname.data).getLastD []
  if seg = [] then "index.html" else String.mk seg

/-- Body of the initializeNavigation forEach: compare the href attribute to
the current page, add the active class on a match and remove it otherwise. -/
def setActive (cur : String) (l : NavLink) : NavLink :=
  if l.href = cur then { l with classes := addClass "active" l.classes }
  else { l with classes := removeClass "active" l.classes }

/-- initializeNavigation over the collection of nav-link elements. -/
def initializeNavigation (pathname : String) (links : List NavLink) :
    List NavLink :=
  links.map (setActive (currentPage pathname))

/-- C1: after initializeNavigation runs with location path P, a navigation
link carries the active class exactly when its href attribute equals the
last path segment of P (or index.html when that segment is empty); so every
matching link is marked, every other link is unmarked, and when no href
matches no link is marked. -/
theorem initializeNavigation_active_iff (pathname : String)
    (links : List NavLink) (l : NavLink)
    (hl : l ∈ initializeNavigation pathname links) :
    "active" ∈ l.classes ↔ l.href = currentPage pathname := by
  rcases List.mem_map.mp hl with ⟨l0, _, rfl⟩
  unfold setActive
  split
  case isTrue h =>
    simpa using ⟨fun _ => h, fun _ => mem_addClass "active" l0.classes⟩
  case isFalse h =>
    simp only [h]
    constructor
    · intro hmem
      exact absurd hmem (not_mem_removeClass "active" l0.classes)
    · intro hfalse
      exact absurd hfalse (by simp)

/-- Witness for C1: concrete two-link page at path /site/about.html, where
the matching link ends up active. -/
theorem initializeNavigation_active_iff_witness :
    ("active" ∈ (NavLink.mk "about.html" ["active"]).classes ↔
      (NavLink.mk "about.html" ["active"]).href = currentPage "/site/about.html") ∧
    "active" ∈ (NavLink.mk "about.html" ["active"]).classes := by
  refine ⟨initializeNavigation_active_iff "/site/about.html"
    [NavLink.mk "about.html" [], NavLink.mk "index.html" ["active"]]
    (NavLink.mk "about.html" ["active"]) ?_, by decide⟩
  decide

/-- Serialization of one character of a text node back out as markup: the
browser escapes the HTML-significant characters ampersand, less-than and
greater-than when innerHTML is read. -/
def escapeChar (c : Char) : List Char :=
  if c = '&' then "&amp;".data
  else if c = '<' then "&lt;".data
  else if c = '>' then "&gt;".data
  else [c]

/-- sanitizeHTML: assign the string to div.textContent and read back
div.innerHTML, yielding the text with HTML-significant characters escaped. -/
def sanitizeHTML (s : String) : String :=
  String.mk (s.data.map escapeChar).flatten

theorem lt_not_mem_escapeChar (c : Char) : '<' ∉ escapeChar c := by
  unfold escapeChar
  split
  · decide
  · split
    · decide
    · split
      · decide
      · rename_i h1 h2 h3
        simp only [List.mem_singleton]
        intro h
        exact h2 h.symm

theorem gt_not_mem_escapeChar (c : Char) : '>' ∉ escapeChar c := by
  unfold escapeChar
  split
  · decide
  · split
    · decide
    · split
      · decide
      · rename_i h1 h2 h3
        simp only [List.mem_singleton]
        intro h
        exact h3 h.symm

/-- C7: sanitizeHTML escapes the HTML-significant characters, so the output
contains no raw angle brackets and is safe to insert as markup; in
particular the script tag input yields its escaped textual representation. -/
theorem sanitizeHTML_escapes :
    sanitizeHTML "<script>" = "&lt;script&gt;" ∧
    ∀ s : String, '<' ∉ (sanitizeHTML s).data ∧ '>' ∉ (sanitizeHTML s).data := by
  constructor
  · rfl
  · intro s
    constructor
    · simp only [sanitizeHTML, List.mem_flatten]
      rintro ⟨l, hl, hcl⟩
      rcases List.mem_map.mp hl with ⟨c, _, rfl⟩
      exact lt_not_mem_escapeChar c hcl
    · simp only [sanitizeHTML, List.mem_flatten]
      rintro ⟨l, hl, hcl⟩
      rcases List.mem_map.mp hl with ⟨c, _, rfl⟩
      exact gt_not_mem_escapeChar c hcl

/-- Page state relevant to the theme component: the body class list, the
persisted storage entry under the key theme, the toggle icon text, and
whether the theme-toggle element exists in the document. -/
structure ThemeState where
  bodyClasses : List String
  storage : Option String
  icon : String
  hasToggle : Bool
deriving DecidableEq

/-- updateThemeIcon: when the theme-toggle element exists, set its text to
the moon icon for light and the sun icon for dark; otherwise do nothing. -/
def updateThemeIcon (isLight : Bool) (s : ThemeState) : ThemeState :=
  if s.hasToggle then { s with icon := if isLight then "🌙" else "☀️" } else s

/-- Click handler installed on the theme toggle: toggle the light-theme body
class, persist light or dark according to the resulting class presence, and
update the icon. -/
def themeToggleClick (s : ThemeState) : ThemeState :=
  let s1 := { s with bodyClasses := toggleClass "light-theme" s.bodyClasses }
  let isLight := s1.bodyClasses.contains "light-theme"
  let s2 := { s1 with storage := some (if isLight then "light" else "dark") }
  updateThemeIcon isLight s2

/-- initializeTheme: when the theme-toggle element exists, install the click
handler (no state change by itself) and replay the saved preference by
adding the light-theme class and setting the moon icon when the saved value
is light; when the toggle is absent the whole component is inert. -/
def initializeTheme (s : ThemeState) : ThemeState :=
  if s.hasToggle then
    if s.storage = some "light" then
      updateThemeIcon true
        { s with bodyClasses := addClass "light-theme" s.bodyClasses }
    else s
  else s

/-- Agreement of the persisted theme value with the body marker: the body
carries light-theme exactly when the stored value is light. -/
def themeInvariant (s : ThemeState) : Prop :=
  s.bodyClasses.contains "light-theme" = true ↔ s.storage = some "light"

instance (s : ThemeState) : Decidable (themeInvariant s) := by
  unfold themeInvariant
  infer_instance

/-- C2 counterexample: when the theme-toggle element is absent but the
persisted value is light, initializeTheme is inert, so after page load the
stored value says light while the body does not carry the class. -/
theorem initializeTheme_agreement_ce :
    ¬ themeInvariant (initializeTheme
      { bodyClasses := [], storage := some "light", icon := "☀️",
        hasToggle := false }) := by
  decide

/-- C2 amended: after any theme-toggle click the persisted value and the
body marker agree unconditionally; after a page load they agree provided the
theme-toggle element is present and the body starts in the default dark
state, without the light-theme class. -/
theorem theme_agreement (s : ThemeState) :
    themeInvariant (themeToggleClick s) ∧
    (s.hasToggle = true → s.bodyClasses.contains "light-theme" = false →
      themeInvariant (initializeTheme s)) := by
  constructor
  · unfold themeToggleClick themeInvariant updateThemeIcon
    dsimp only
    rcases h : ({ s with bodyClasses := toggleClass "light-theme" s.bodyClasses } :
        ThemeState).bodyClasses.contains "light-theme" with _ | _ <;>
      split <;> simp_all
  · intro htog hclass
    unfold initializeTheme themeInvariant updateThemeIcon
    rw [htog]
    simp only [if_true]
    split
    · rename_i hlight
      simp only [hlight]
      simp [mem_addClass]
    · rename_i hnotlight
      rw [hclass]
      simp [hnotlight]

/-- Witness for C2 amended: a concrete default dark page with the toggle
present, both after a click and after a load. -/
theorem theme_agreement_witness :
    themeInvariant (themeToggleClick
      { bodyClasses := [], storage := none, icon := "☀️", hasToggle := true }) ∧
    themeInvariant (initializeTheme
      { bodyClasses := [], storage := none, icon := "☀️", hasToggle := true }) := by
  have h := theme_agreement
    { bodyClasses := [], storage := none, icon := "☀️", hasToggle := true }
  exact ⟨h.1, h.2 rfl rfl⟩

/-- Click handler installed on the mobile-nav toggle: the code reads the
nav-links container with querySelector and toggles mobile-active on its
classList without an existence check, so a missing container is a null
dereference that throws. -/
def mobileNavToggleClick (navLinksContainer : Option (List String)) :
    Except String (List String) :=
  match navLinksContainer with
  | none => Except.error "TypeError: cannot read classList of null"
  | some cls => Except.ok (toggleClass "mobile-active" cls)

/-- C3: the claim that every operation on a missing element is a silent
no-op fails at the mobile-nav click handler: with the toggle present but no
nav-links container in the document, a click throws instead of doing
nothing, while every other element lookup in the script is guarded. -/
theorem mobileNavToggleClick_missing_container_throws :
    mobileNavToggleClick none =
      Except.error "TypeError: cannot read classList of null" := rfl

/-- Run of a debounce wrapper over its calls, each a pair of call time and
captured arguments, with the pending timer carried as its fire time and the
arguments captured for it. Each call clears any pending timer and schedules
fn at its own time plus wait with its own arguments; a pending timer whose
fire time is not after the next call has already fired before that call.
The result lists the fn invocations as pairs of fire time and arguments. -/
def debounceRun {α : Type} (wait : Nat) :
    List (Nat × α) → Option (Nat × α) → List (Nat × α)
  | [], pending => pending.toList
  | (t, a) :: rest, pending =>
      (match pending with
       | some (f, b) => if f ≤ t then [(f, b)] else []
       | none => []) ++ debounceRun wait rest (some (t + wait, a))

/-- Possible JS return values of a wrapper call: undefined, or a value. -/
inductive JsRet where
  | undef
  | val (s : String)
deriving DecidableEq

/-- Return value of one debounce wrapper call: the function body of
executedFunction ends without a return statement, so every call returns
undefined whatever fn returns. -/
def debounceCallRet {α : Type} (wait : Nat) (_pending : Option (Nat × α))
    (call : Nat × α) : JsRet × Option (Nat × α) :=
  (JsRet.undef, some (call.1 + wait, call.2))

theorem debounceRun_burst {α : Type} (wait : Nat) (rest : List (Nat × α))
    (c : Nat × α) (h : List.Chain (fun p q => q.1 < p.1 + wait) c rest) :
    debounceRun wait (c :: rest) none =
      [(((c :: rest).getLast (List.cons_ne_nil c rest)).1 + wait,
        ((c :: rest).getLast (List.cons_ne_nil c rest)).2)] := by
  induction rest generalizing c with
  | nil => simp [debounceRun]
  | cons d rest' ih =>
      rcases List.chain_cons.mp h with ⟨hdc, hchain⟩
      have hlast : (c :: d :: rest').getLast (List.cons_ne_nil c (d :: rest')) =
          (d :: rest').getLast (List.cons_ne_nil d rest') :=
        List.getLast_cons (List.cons_ne_nil d rest')
      rw [hlast]
      have step1 : debounceRun wait (c :: d :: rest') none =
          debounceRun wait (d :: rest') (some (c.1 + wait, c.2)) := by
        conv_lhs => rw [show (c : Nat × α) = (c.1, c.2) from rfl]
        simp [debounceRun]
      have step2 : debounceRun wait (d :: rest') (some (c.1 + wait, c.2)) =
          debounceRun wait (d :: rest') none := by
        conv_lhs => rw [show (d : Nat × α) = (d.1, d.2) from rfl]
        conv_rhs => rw [show (d : Nat × α) = (d.1, d.2) from rfl]
        simp only [debounceRun]
        have : ¬ c.1 + wait ≤ d.1 := by omega
        simp [this]
      rw [step1, step2]
      exact ih d hchain

/-- C4: a burst of one or more debounce wrapper calls whose successive calls
are each less than wait apart produces exactly one fn invocation, scheduled
at the time of the last call plus wait; every earlier pending invocation is
cancelled by the next call. -/
theorem debounce_trailing_once {α : Type} (wait : Nat) (c : Nat × α)
    (rest : List (Nat × α))
    (h : List.Chain (fun p q => q.1 < p.1 + wait) c rest) :
    (debounceRun wait (c :: rest) none).length = 1 ∧
    (debounceRun wait (c :: rest) none).map Prod.fst =
      [((c :: rest).getLast (List.cons_ne_nil c rest)).1 + wait] := by
  rw [debounceRun_burst wait rest c h]
  exact ⟨rfl, rfl⟩

/-- Witness for C4: three calls at times 0, 5, 9 with wait 10 fire once at
time 19. -/
theorem debounce_trailing_once_witness :
    (debounceRun 10 [(0, "a"), (5, "b"), (9, "c")] none).length = 1 ∧
    (debounceRun 10 [(0, "a"), (5, "b"), (9, "c")] none).map Prod.fst =
      [([((0 : Nat), "a"), (5, "b"), (9, "c")].getLast (by simp)).1 + 10] :=
  debounce_trailing_once 10 (0, "a") [(5, "b"), (9, "c")]
    (List.Chain.cons (by decide) (List.Chain.cons (by decide) List.Chain.nil))

/-- C10: when the trailing debounce invocation fires, fn receives exactly
the arguments captured by the most recent wrapper call, the arguments of all
earlier calls in the burst being discarded with their cancelled timers; and
every wrapper call itself returns undefined, never propagating the result of
fn. -/
theorem debounce_last_args {α : Type} (wait : Nat) (c : Nat × α)
    (rest : List (Nat × α))
    (h : List.Chain (fun p q => q.1 < p.1 + wait) c rest) :
    (debounceRun wait (c :: rest) none).map Prod.snd =
      [((c :: rest).getLast (List.cons_ne_nil c rest)).2] ∧
    ∀ (pending : Option (Nat × α)) (call : Nat × α),
      (debounceCallRet wait pending call).1 = JsRet.undef := by
  rw [debounceRun_burst wait rest c h]
  exact ⟨rfl, fun _ _ => rfl⟩

/-- Witness for C10: the burst at times 0, 5, 9 delivers the arguments of
the call at time 9. -/
theorem debounce_last_args_witness :
    (debounceRun 10 [(0, "a"), (5, "b"), (9, "c")] none).map Prod.snd =
      [([((0 : Nat), "a"), (5, "b"), (9, "c")].getLast (by simp)).2] ∧
    (debounceCallRet 10 (none : Option (Nat × String)) (0, "a")).1 =
      JsRet.undef := by
  have hch : List.Chain (fun p q : Nat × String => q.1 < p.1 + 10)
      (0, "a") [(5, "b"), (9, "c")] :=
    List.Chain.cons (by decide) (List.Chain.cons (by decide) List.Chain.nil)
  exact ⟨(debounce_last_args 10 (0, "a") [(5, "b"), (9, "c")] hch).1,
    (debounce_last_args 10 (0, "a") [(5, "b"), (9, "c")] hch).2 none (0, "a")⟩

/-- Run of a throttle wrapper over its call times, with the state carried as
the pending reset time when the inThrottle flag is set. A call during the
window is dropped; otherwise fn runs immediately at the call time and the
reset timer is scheduled at the call time plus limit. Returns the times at
which fn was invoked. -/
def throttleRun (limit : Nat) : List Nat → Option Nat → List Nat
  | [], _ => []
  | t :: rest, st =>
      match st with
      | some r =>
          if t < r then throttleRun limit rest (some r)
          else t :: throttleRun limit rest (some (t + limit))
      | none => t :: throttleRun limit rest (some (t + limit))

theorem throttleRun_drop (limit : Nat) (r : Nat) (burst tail : List Nat)
    (hb : ∀ u ∈ burst, u < r) :
    throttleRun limit (burst ++ tail) (some r) =
      throttleRun limit tail (some r) := by
  induction burst with
  | nil => rfl
  | cons u burst' ih =>
      have hu : u < r := hb u (by simp)
      simp only [List.cons_append, throttleRun, if_pos hu]
      exact ih (fun v hv => hb v (by simp [hv]))

/-- C5: the throttle wrapper invokes fn immediately on its first call,
suppresses every call made within limit of that invocation, and once limit
has elapsed the next call invokes fn immediately again with a fresh window;
a burst entirely inside the window yields exactly the one leading
invocation and no trailing one. -/
theorem throttle_leading_edge (limit t : Nat) (burst : List Nat) (t' : Nat)
    (rest : List Nat) (hb : ∀ u ∈ burst, u < t + limit)
    (ht' : t + limit ≤ t') :
    throttleRun limit (t :: burst) none = [t] ∧
    throttleRun limit (t :: (burst ++ t' :: rest)) none =
      t :: t' :: throttleRun limit rest (some (t' + limit)) := by
  constructor
  · simp only [throttleRun]
    rw [show burst = burst ++ ([] : List Nat) by simp]
    rw [throttleRun_drop limit (t + limit) burst [] hb]
    rfl
  · simp only [throttleRun]
    rw [throttleRun_drop limit (t + limit) burst (t' :: rest) hb]
    simp only [throttleRun]
    have : ¬ t' < t + limit := by omega
    rw [if_neg this]

/-- Witness for C5: limit 10, leading call at 0, burst at 3 and 9 dropped,
next call at 10 allowed. -/
theorem throttle_leading_edge_witness :
    throttleRun 10 [0, 3, 9] none = [0] ∧
    throttleRun 10 [0, 3, 9, 10] none = [0, 10] := by
  have h := throttle_leading_edge 10 0 [3, 9] 10 [] (by decide) (by decide)
  exact ⟨h.1, h.2⟩

/-- A DOM mutation performed by the clipboard fallback path. -/
inductive DomOp where
  | create
  | append
  | remove
deriving DecidableEq

/-- Environment for copyToClipboard: whether the promise of
navigator.clipboard.writeText resolves, whether document.execCommand with
the copy command throws, and the children of document.body. -/
structure ClipEnv where
  writeTextOk : Bool
  execCommandThrows : Bool
  body : List String
deriving DecidableEq

/-- copyToClipboard: resolve true when the primary clipboard write succeeds;
on rejection, create a textarea, append it to the body, run the copy
command, and remove the textarea on both the success and the failure path.
Returns the resolved boolean, the final body children, and the list of DOM
operations performed. -/
def copyToClipboard (env : ClipEnv) : Bool × List String × List DomOp :=
  if env.writeTextOk then (true, env.body, [])
  else
    let withTextArea := env.body ++ ["textarea"]
    if env.execCommandThrows then
      (false, withTextArea.dropLast, [DomOp.create, DomOp.append, DomOp.remove])
    else
      (true, withTextArea.dropLast, [DomOp.create, DomOp.append, DomOp.remove])

/-- C6: copyToClipboard resolves true on primary success without touching
the DOM; on primary failure it creates and appends the temporary element,
removes it on both fallback outcomes so the body is restored, and resolves
true exactly when the fallback command does not throw, hence false only when
both paths fail. -/
theorem copyToClipboard_spec (env : ClipEnv) :
    (copyToClipboard env).1 = (env.writeTextOk || !env.execCommandThrows) ∧
    (env.writeTextOk = true → copyToClipboard env = (true, env.body, [])) ∧
    (env.writeTextOk = false →
      (copyToClipboard env).2.1 = env.body ∧
      (copyToClipboard env).2.2 =
        [DomOp.create, DomOp.append, DomOp.remove] ∧
      ((copyToClipboard env).1 = true ↔ env.execCommandThrows = false)) := by
  rcases env with ⟨wok, ethrows, body⟩
  rcases wok with _ | _ <;> rcases ethrows with _ | _ <;>
    simp [copyToClipboard, List.dropLast_concat]

/-- Witness for C6: the primary-success and the fallback-failure
environments over an empty body. -/
theorem copyToClipboard_spec_witness :
    copyToClipboard ⟨true, false, []⟩ = (true, [], []) ∧
    (copyToClipboard ⟨false, true, ["main"]⟩).2.1 = ["main"] ∧
    ((copyToClipboard ⟨false, true, ["main"]⟩).1 = true ↔
      (⟨false, true, ["main"]⟩ : ClipEnv).execCommandThrows = false) :=
  ⟨(copyToClipboard_spec ⟨true, false, []⟩).2.1 rfl,
   ((copyToClipboard_spec ⟨false, true, ["main"]⟩).2.2 rfl).1,
   ((copyToClipboard_spec ⟨false, true, ["main"]⟩).2.2 rfl).2.2⟩

/-- A JS fallback argument of withErrorHandling: either an invocable
function, applied to the original arguments, or a plain value returned as
is; the JS default argument is the plain value null. -/
inductive Fallback (α β : Type) where
  | invocable (g : α → β)
  | value (b : β)

/-- withErrorHandling: run fn inside the try block and return its result; on
a raised error, log it with console.error and return the result of invoking
the fallback when it is a function, or the fallback value itself otherwise.
The second component is the console.error log of the call. -/
def withErrorHandling {α β ε : Type} (fn : α → Except ε β) (fb : Fallback α β)
    (args : α) : β × List ε :=
  match fn args with
  | Except.ok r => (r, [])
  | Except.error e =>
      match fb with
      | Fallback.invocable g => (g args, [e])
      | Fallback.value b => (b, [e])

/-- C9: the wrapper returns the result of fn when fn does not raise, logging
nothing; when fn raises, the wrapper logs exactly that error and returns the
fallback function applied to the same arguments when the fallback is
invocable, and the fallback value itself otherwise; the wrapper is total, so
it never re-raises. -/
theorem withErrorHandling_spec {α β ε : Type} (fn : α → Except ε β)
    (fb : Fallback α β) (args : α) :
    (∀ r, fn args = Except.ok r → withErrorHandling fn fb args = (r, [])) ∧
    (∀ e, fn args = Except.error e →
      (withErrorHandling fn fb args).2 = [e] ∧
      (∀ g, fb = Fallback.invocable g →
        (withErrorHandling fn fb args).1 = g args) ∧
      (∀ b, fb = Fallback.value b → (withErrorHandling fn fb args).1 = b)) := by
  constructor
  · intro r hr
    simp [withErrorHandling, hr]
  · intro e he
    refine ⟨?_, ?_, ?_⟩
    · rcases fb with g | b <;> simp [withErrorHandling, he]
    · rintro g rfl
      simp [withErrorHandling, he]
    · rintro b rfl
      simp [withErrorHandling, he]

/-- Witness for C9: a function raising on zero, with an invocable fallback
on one call and the default-style plain null value on another. -/
theorem withErrorHandling_spec_witness :
    withErrorHandling (fun n : Nat => if n = 0 then Except.error "boom"
      else Except.ok (some (n + 1)))
      (Fallback.invocable (fun n => some (n * 2))) 3 = (some 4, []) ∧
    (withErrorHandling (fun n : Nat => if n = 0 then Except.error "boom"
      else Except.ok (some (n + 1)))
      (Fallback.invocable (fun n => some (n * 2))) 0).1 = some 0 ∧
    (withErrorHandling (fun n : Nat => if n = 0 then Except.error "boom"
      else Except.ok (some (n + 1))) (Fallback.value none) 0).1 = none := by
  refine ⟨?_, ?_, ?_⟩
  · exact (withErrorHandling_spec _ _ 3).1 (some 4) rfl
  · exact (((withErrorHandling_spec _ _ 0).2 "boom" rfl).2.1 _ rfl).trans rfl
  · exact ((withErrorHandling_spec _ _ 0).2 "boom" rfl).2.2 none rfl

/-- An element carrying the animation-request marker: its data-animate
attribute value, its inline opacity and animation styles, and whether the
observer is currently observing it. -/
structure AnimEl where
  dataAnimate : Option String
  opacity : Option String
  animation : Option String
  observed : Bool
deriving DecidableEq

/-- The expression getAttribute data-animate with the or-default fadeInUp:
a missing attribute is null and the empty string is falsy, so both fall back
to fadeInUp. -/
def animName (e : AnimEl) : String :=
  match e.dataAnimate with
  | some a => if a = "" then "fadeInUp" else a
  | none => "fadeInUp"

/-- The inline animation style applied on intersection: the animation name
followed by 0.6s ease forwards. -/
def animStyle (e : AnimEl) : String := animName e ++ " 0.6s ease forwards"

/-- initializeAnimations: when some element carries the marker and
IntersectionObserver is available, style every marked element invisible and
observe it; otherwise do nothing. -/
def initializeAnimations (ioAvailable : Bool) (els : List AnimEl) :
    List AnimEl :=
  if 0 < els.length ∧ ioAvailable = true then
    els.map (fun e => { e with opacity := some "0", observed := true })
  else els

/-- Replace the element at an index by the image under f, leaving the list
unchanged when the index is out of range. -/
def modifyAt {α : Type} : List α → Nat → (α → α) → List α
  | [], _, _ => []
  | x :: xs, 0, f => f x :: xs
  | x :: xs, n + 1, f => x :: modifyAt xs n f

theorem modifyAt_getElem {α : Type} (l : List α) (i j : Nat) (f : α → α) :
    (modifyAt l i f)[j]? = if i = j then (l[j]?).map f else l[j]? := by
  induction l generalizing i j with
  | nil => simp [modifyAt]
  | cons x xs ih =>
      cases i with
      | zero =>
          cases j with
          | zero => simp [modifyAt]
          | succ j' => simp [modifyAt]
      | succ i' =>
          cases j with
          | zero => simp [modifyAt]
          | succ j' =>
              simp only [modifyAt, List.getElem?_cons_succ, ih i' j',
                Nat.succ_inj]

/-- Observer callback for one entry, given as target index and intersection
flag: on intersection of a still-observed element, apply the animation style
derived from its attribute and unobserve it; an entry that does not
intersect does nothing, and an unobserved target produces no effect. -/
def observerStep (els : List AnimEl) (ev : Nat × Bool) : List AnimEl :=
  if ev.2 then
    modifyAt els ev.1 (fun e =>
      if e.observed then
        { e with animation := some (animStyle e), observed := false }
      else e)
  else els

/-- The element at an index is not under observation, or absent. -/
def unobservedAt (els : List AnimEl) (i : Nat) : Bool :=
  !((els[i]?).map AnimEl.observed).getD false

/-- An observer entry applies the animation to the element at index i when
it intersects, targets i, and the element there is still observed. -/
def appliedAt (els : List AnimEl) (ev : Nat × Bool) (i : Nat) : Bool :=
  ev.2 && (ev.1 == i) && !unobservedAt els i

/-- Number of times the animation style is applied to the element at index i
along a sequence of observer entries. -/
def applyCount : List AnimEl → List (Nat × Bool) → Nat → Nat
  | _, [], _ => 0
  | els, ev :: evs, i =>
      (if appliedAt els ev i then 1 else 0) +
        applyCount (observerStep els ev) evs i

theorem unobservedAt_observerStep (els : List AnimEl) (ev : Nat × Bool)
    (i : Nat) (h : unobservedAt els i = true) :
    unobservedAt (observerStep els ev) i = true := by
  unfold observerStep
  split
  · unfold unobservedAt at h ⊢
    rw [modifyAt_getElem]
    split
    · cases hget : els[i]? with
      | none => simp
      | some e =>
          rw [hget] at h
          simp only [Option.map_some', Option.getD_some,
            Bool.not_eq_true'] at h
          simp [h]
    · exact h
  · exact h

theorem appliedAt_observerStep_unobserved (els : List AnimEl)
    (ev : Nat × Bool) (i : Nat) (h : appliedAt els ev i = true) :
    unobservedAt (observerStep els ev) i = true := by
  unfold appliedAt at h
  simp only [Bool.and_eq_true, beq_iff_eq] at h
  obtain ⟨⟨hint, htgt⟩, hobs⟩ := h
  simp only [Bool.not_eq_true'] at hobs
  unfold unobservedAt at hobs ⊢
  unfold observerStep
  rw [hint]
  simp only [if_true]
  rw [modifyAt_getElem, htgt, if_pos rfl]
  cases hget : els[i]? with
  | none => simp
  | some e =>
      rw [hget] at hobs
      simp only [Option.map_some', Option.getD_some] at hobs
      have hobse : e.observed = true := by
        cases hb : e.observed
        · rw [hb] at hobs
          exact absurd hobs (by decide)
        · rfl
      simp [hobse]

theorem applyCount_zero_of_unobserved (evs : List (Nat × Bool))
    (els : List AnimEl) (i : Nat) (h : unobservedAt els i = true) :
    applyCount els evs i = 0 := by
  induction evs generalizing els with
  | nil => rfl
  | cons ev evs' ih =>
      unfold applyCount
      have happ : appliedAt els ev i = false := by
        unfold appliedAt
        rw [h]
        simp
      rw [happ]
      simp only [if_neg Bool.false_ne_true, Nat.zero_add]
      exact ih (observerStep els ev) (unobservedAt_observerStep els ev i h)

theorem applyCount_le_one (evs : List (Nat × Bool)) (els : List AnimEl)
    (i : Nat) : applyCount els evs i ≤ 1 := by
  induction evs generalizing els with
  | nil => exact Nat.zero_le 1
  | cons ev evs' ih =>
      unfold applyCount
      cases happ : appliedAt els ev i with
      | false =>
          simp only [if_neg Bool.false_ne_true, Nat.zero_add]
          exact ih (observerStep els ev)
      | true =>
          rw [applyCount_zero_of_unobserved evs' (observerStep els ev) i
            (appliedAt_observerStep_unobserved els ev i happ)]
          simp [happ]

/-- C8: with the visibility-observation capability unavailable,
initializeAnimations changes nothing; with it available, every marked
element is styled invisible immediately after initialization; along any
sequence of observer entries the animation style is applied to an element at
most once, even when it intersects again after leaving; and the first
intersection of a still-observed element applies the style derived from its
requested name, fadeInUp when none is given. -/
theorem initializeAnimations_spec :
    (∀ els : List AnimEl, initializeAnimations false els = els) ∧
    (∀ els : List AnimEl, ∀ e ∈ initializeAnimations true els,
      e.opacity = some "0") ∧
    (∀ (els : List AnimEl) (evs : List (Nat × Bool)) (i : Nat),
      applyCount (initializeAnimations true els) evs i ≤ 1) ∧
    (∀ (els : List AnimEl) (i : Nat) (e : AnimEl), els[i]? = some e →
      e.observed = true →
      (observerStep els (i, true))[i]? =
        some { e with animation := some (animStyle e), observed := false }) ∧
    (∀ (o a : Option String) (b : Bool),
      animStyle (AnimEl.mk none o a b) = "fadeInUp 0.6s ease forwards") := by
  refine ⟨?_, ?_, ?_, ?_, ?_⟩
  · intro els
    simp [initializeAnimations]
  · intro els e he
    unfold initializeAnimations at he
    split at he
    · rcases List.mem_map.mp he with ⟨e0, _, rfl⟩
      rfl
    · rename_i hcond
      have hlen : ¬ 0 < els.length := fun hp => hcond ⟨hp, rfl⟩
      have hnil : els = [] := by
        cases els with
        | nil => rfl
        | cons x xs => exact absurd (by simp) hlen
      subst hnil
      simp at he
  · intro els evs i
    exact applyCount_le_one evs (initializeAnimations true els) i
  · intro els i e hget hobs
    unfold observerStep
    simp only [if_true]
    rw [modifyAt_getElem, if_pos rfl, hget]
    simp [hobs]
  · intro o a b
    rfl

/-- Witness for C8: a single marked element without a requested name is
invisible after initialization, is animated at most once over three entries,
and receives the default style on first intersection. -/
theorem initializeAnimations_spec_witness :
    (AnimEl.mk (some "slide") (some "0") none true).opacity = some "0" ∧
    applyCount
      (initializeAnimations true [AnimEl.mk (some "slide") none none false])
      [(0, true), (0, false), (0, true)] 0 ≤ 1 ∧
    (observerStep [AnimEl.mk none (some "0") none true] (0, true))[0]? =
      some { (AnimEl.mk none (some "0") none true) with
        animation := some (animStyle (AnimEl.mk none (some "0") none true)),
        observed := false } := by
  have h := initializeAnimations_spec
  exact ⟨h.2.1 [AnimEl.mk (some "slide") none none false] _ (by decide),
    h.2.2.1 [AnimEl.mk (some "slide") none none false]
      [(0, true), (0, false), (0, true)] 0,
    h.2.2.2.1 [AnimEl.mk none (some "0") none true] 0
      (AnimEl.mk none (some "0") none true) rfl rfl⟩

end StyleJs
